import Mathlib

/-!
Shallow embedding of the spreadsheet-import pipeline of
export-data-explorer (src/server/index.js; src/api/index.js is a
near-identical variant of the same logic).

Modelling conventions:
- A spreadsheet cell value is a string, a number, or null.  Numbers are
  modelled as integers (Excel date serials and ids are integral; the
  monetary and quantity fields the pipeline derives from cells are
  rationals).  JavaScript renders every integer in this range as plain
  decimal digits, which jsIntRepr reproduces.
- A parsed row (XLSX.utils.sheet_to_json) is an ordered association list
  of header string to cell value, mirroring a plain JS object with its
  key-insertion order; JS object key lookup is modelled as first match.
- JS Date values are modelled date-only with the process timezone fixed
  to UTC: a date is the number of days since 1970-01-01, converted to or
  from a calendar date with the proleptic Gregorian calendar.
- new Date(string) parsing is engine-defined; it is an external
  collaborator here and is passed in as a parameter
  dp : String → Option Int (days since epoch, none for an invalid date).
- Math.random suffixes, the upload timestamp and non-uniqueness
  persistence failures are nondeterministic inputs; they are passed in
  as explicit parameters (suffixes, nowMs, failAt).
-/

namespace EDE

/-- A raw spreadsheet cell value as produced by the XLSX parser. -/
inductive RawValue where
  | str : String → RawValue
  | num : Int → RawValue
  | null : RawValue
deriving DecidableEq

/-- One decimal digit character. -/
def digitChar (n : Nat) : Char := Char.ofNat (48 + n)

/-- Decimal digits of a natural number, most significant first.
The first argument is fuel; it is always called with fuel greater than
the number, where the recursion never exhausts it. -/
def natDigitsAux : Nat → Nat → List Char
  | 0, _ => []
  | fuel + 1, n => if n < 10 then [digitChar n] else natDigitsAux fuel (n / 10) ++ [digitChar (n % 10)]

/-- JS String(n) for a nonnegative integer n. -/
def jsNatRepr (n : Nat) : String := String.mk (natDigitsAux (n + 1) n)

/-- JS String(n) for an integer n (faithful for the integers that a JS
number renders in plain decimal notation, i.e. magnitude below 1e21,
which covers every exactly-representable integer). -/
def jsIntRepr (i : Int) : String :=
  if i < 0 then "-" ++ jsNatRepr i.natAbs else jsNatRepr i.toNat

/-- JS String(v) for a cell value. -/
def RawValue.jsString : RawValue → String
  | .str s => s
  | .num n => jsIntRepr n
  | .null => "null"

/-- JS truthiness of a cell value ('' , 0 and null are falsy). -/
def RawValue.truthy : RawValue → Bool
  | .str s => s ≠ ""
  | .num n => n ≠ 0
  | .null => false

/-- The whitespace characters relevant to JS trimming and numeric
coercion (the common ASCII whitespace). -/
def isJsWhitespace (c : Char) : Bool :=
  c == ' ' || c == '\t' || c == '\n' || c == '\r' || c == '\x0b' || c == '\x0c'

/-- JS s.trim(): drop whitespace from both ends. -/
def jsTrim (s : String) : String :=
  String.mk (((s.data.dropWhile isJsWhitespace).reverse.dropWhile isJsWhitespace).reverse)

/-- JS s.toUpperCase() over the ASCII range the data uses. -/
def jsToUpper (s : String) : String :=
  String.mk (s.data.map Char.toUpper)

/-- The non-emptiness test the resolver applies to a candidate value:
v !== null && String(v).trim() !== '' (absence of the key, JS undefined,
is modelled by Option at the lookup site). -/
def RawValue.nonEmpty : RawValue → Bool
  | .null => false
  | v => jsTrim v.jsString ≠ ""

/-- A parsed spreadsheet row: header strings to cell values, in the
object's key order. -/
abbrev RawRow := List (String × RawValue)

/-- JS property lookup row[k]; none models undefined. -/
def rowGet (row : RawRow) (k : String) : Option RawValue :=
  (row.find? (fun p => p.1 == k)).map (·.2)

/-- The characters removed by the header normalizer, the JS regex
class [\s_-] (the common whitespace characters, underscore, hyphen). -/
def isStripChar (c : Char) : Bool :=
  c == ' ' || c == '\t' || c == '\n' || c == '\r' || c == '\x0b' || c == '\x0c' || c == '_' || c == '-'

/-- key.toLowerCase().replace(/[\s_-]+/g, '') from findColumnValue. -/
def normalizeKey (s : String) : String :=
  String.mk ((s.data.map Char.toLower).filter (fun c => !isStripChar c))

/-- The keyMap object of findColumnValue: normalized key to actual key.
Assignment to an existing JS object key overwrites the value but keeps
the first-insertion position, which the fold reproduces. -/
def buildKeyMap (keys : List String) : List (String × String) :=
  keys.foldl
    (fun m k =>
      let nk := normalizeKey k
      if m.any (fun p => p.1 == nk) then m.map (fun p => if p.1 == nk then (p.1, k) else p)
      else m ++ [(nk, k)])
    []

/-- Lookup in the keyMap association list. -/
def lookupKeyMap (keyMap : List (String × String)) (nk : String) : Option String :=
  (keyMap.find? (fun p => p.1 == nk)).map (·.2)

/-- The keyMap findColumnValue builds for a row. -/
def rowKeyMap (row : RawRow) : List (String × String) :=
  buildKeyMap (row.map (·.1))

/-- Direct match step of findColumnValue: row has the alias as an exact
key and the value passes the non-emptiness test. -/
def exactHit (row : RawRow) (name : String) : Option RawValue :=
  match rowGet row name with
  | some v => if v.nonEmpty then some v else none
  | none => none

/-- Normalized match step of findColumnValue: the normalized alias is in
the keyMap (and the stored actual key is truthy, as the JS code tests
keyMap[normalizedName] for truthiness) and the value passes the
non-emptiness test. -/
def normHit (row : RawRow) (keyMap : List (String × String)) (name : String) : Option RawValue :=
  match lookupKeyMap keyMap (normalizeKey name) with
  | some actualKey =>
      if actualKey ≠ "" then
        match rowGet row actualKey with
        | some v => if v.nonEmpty then some v else none
        | none => none
      else none
  | none => none

/-- First-success choice. -/
def firstSome (a b : Option RawValue) : Option RawValue :=
  match a with
  | some v => some v
  | none => b

/-- What one alias yields in the first loop of findColumnValue: the
direct match is tried, then the normalized match, for this alias. -/
def aliasHit (row : RawRow) (keyMap : List (String × String)) (name : String) : Option RawValue :=
  firstSome (exactHit row name) (normHit row keyMap name)

/-- The first loop of findColumnValue over the alias list: for each
alias in priority order, direct match then normalized match. -/
def pass1 (row : RawRow) (keyMap : List (String × String)) : List String → Option RawValue
  | [] => none
  | name :: rest =>
    match aliasHit row keyMap name with
    | some v => some v
    | none => pass1 row keyMap rest

/-- List-level prefix test (used to implement the substring test). -/
def listIsPrefixOf : List Char → List Char → Bool
  | [], _ => true
  | _ :: _, [] => false
  | a :: as, b :: bs => a == b && listIsPrefixOf as bs

/-- JS haystack.includes(needle): substring containment. -/
def strContains (haystack needle : String) : Bool :=
  (List.range (haystack.data.length + 1)).any
    (fun i => listIsPrefixOf needle.data (haystack.data.drop i))

/-- The inner scan of the substring-match loop: walk the keyMap entries in
order and return the first value whose normalized header contains, or is
contained in, the normalized alias and passes the non-emptiness test. -/
def scanKeyMap (row : RawRow) (nn : String) : List (String × String) → Option RawValue
  | [] => none
  | (normalized, actualKey) :: rest =>
    if strContains normalized nn || strContains nn normalized then
      match rowGet row actualKey with
      | some v => if v.nonEmpty then some v else scanKeyMap row nn rest
      | none => scanKeyMap row nn rest
    else scanKeyMap row nn rest

/-- The substring-match loop of findColumnValue: for each alias in
priority order, scan all keyMap entries for a substring match. -/
def pass2 (row : RawRow) (keyMap : List (String × String)) : List String → Option RawValue
  | [] => none
  | name :: rest =>
    match scanKeyMap row (normalizeKey name) keyMap with
    | some v => some v
    | none => pass2 row keyMap rest

/-- findColumnValue(row, possibleNames) from src/server/index.js
lines 357-398: direct-or-normalized pass over the aliases, then the
substring pass, then the empty string. -/
def findColumnValue (row : RawRow) (possibleNames : List String) : RawValue :=
  let keyMap := rowKeyMap row
  match pass1 row keyMap possibleNames with
  | some v => v
  | none =>
    match pass2 row keyMap possibleNames with
    | some v => v
    | none => RawValue.str ""

/-! ### JS number parsing and rendering -/

/-- Value of a list of decimal digit characters. -/
def digitsToNat (l : List Char) : Nat :=
  l.foldl (fun a c => a * 10 + (c.toNat - 48)) 0

/-- Exponent tail of a parseFloat literal; an e with no digits after it
contributes nothing (parseFloat backtracks over it). -/
def parseExpTail : List Char → Int
  | '-' :: t => if (t.takeWhile Char.isDigit).isEmpty then 0 else -(digitsToNat (t.takeWhile Char.isDigit) : Int)
  | '+' :: t => if (t.takeWhile Char.isDigit).isEmpty then 0 else (digitsToNat (t.takeWhile Char.isDigit) : Int)
  | t => if (t.takeWhile Char.isDigit).isEmpty then 0 else (digitsToNat (t.takeWhile Char.isDigit) : Int)

/-- The rational value of a parsed decimal literal: sign, integer
digits, fraction digits, decimal exponent. -/
def ratOfParts (neg : Bool) (ip fp : List Char) (expv : Int) : Rat :=
  let mant : Rat := (digitsToNat ip : Rat) + (digitsToNat fp : Rat) / ((10 : Rat) ^ fp.length)
  let v := mant * (if expv < 0 then 1 / ((10 : Rat) ^ expv.natAbs) else ((10 : Rat) ^ expv.toNat))
  if neg then -v else v

/-- JS parseFloat: skip leading whitespace, then parse the longest
prefix of the form sign? digits ( . digits )? ( e sign? digits )?,
ignoring anything after it; none models NaN.  (The Infinity literal is
not modelled; no caller input produces it.)  The exact decimal value is
kept as a rational. -/
def jsParseFloat (s : String) : Option Rat :=
  let cs := s.data.dropWhile isJsWhitespace
  let neg := match cs with | '-' :: _ => true | _ => false
  let cs1 := match cs with | '-' :: rest => rest | '+' :: rest => rest | _ => cs
  let ip := cs1.takeWhile Char.isDigit
  let cs2 := cs1.drop ip.length
  let fp := match cs2 with
    | '.' :: rest => rest.takeWhile Char.isDigit
    | _ => []
  if ip.isEmpty && fp.isEmpty then none
  else
    let cs3 := match cs2 with
      | '.' :: rest => rest.drop fp.length
      | _ => cs2
    let expv : Int := match cs3 with
      | 'e' :: t => parseExpTail t
      | 'E' :: t => parseExpTail t
      | _ => 0
    some (ratOfParts neg ip fp expv)

/-- Least power of ten clearing the denominator of q, when one exists
below the denominator bound (it always does for parseFloat results,
whose denominators are powers of ten). -/
def decExp (q : Rat) : Option Nat :=
  (List.range (q.den + 1)).find? (fun k => (q * ((10 : Rat) ^ k)).den = 1)

/-- Zero-pad a string on the left to length n (JS padStart(n, "0")). -/
def padZeros (n : Nat) (s : String) : String :=
  if s.data.length < n then String.mk (List.replicate (n - s.data.length) '0' ++ s.data) else s

/-- JS String(q) for a number with an exact short decimal expansion
(the only numbers the pipeline interpolates into strings): minimal
decimal notation, as JS shortest round-trip printing produces for
them.  Other rationals get a total fallback spelling that no pipeline
value reaches. -/
def qToJsString (q : Rat) : String :=
  if q.den = 1 then jsIntRepr q.num
  else
    match decExp q with
    | some k =>
      let n := (q * ((10 : Rat) ^ k)).num.natAbs
      (if q < 0 then "-" else "") ++ jsNatRepr (n / 10 ^ k) ++ "." ++ padZeros k (jsNatRepr (n % 10 ^ k))
    | none => jsIntRepr q.num ++ "/" ++ jsNatRepr q.den

/-! ### Calendar arithmetic (proleptic Gregorian, days since 1970-01-01) -/

/-- Days since 1970-01-01 of a calendar date (standard civil-from-days
companion; floor division throughout). -/
def daysFromCivil (y m d : Int) : Int :=
  let y2 := y - (if m ≤ 2 then 1 else 0)
  let era := Int.fdiv y2 400
  let yoe := y2 - era * 400
  let m2 := m + (if 2 < m then -3 else 9)
  let doy := Int.fdiv (153 * m2 + 2) 5 + d - 1
  let doe := yoe * 365 + Int.fdiv yoe 4 - Int.fdiv yoe 100 + doy
  era * 146097 + doe - 719468

/-- Calendar date (year, month, day) of a count of days since
1970-01-01. -/
def civilFromDays (z0 : Int) : Int × Int × Int :=
  let z := z0 + 719468
  let era := Int.fdiv z 146097
  let doe := z - era * 146097
  let yoe := Int.fdiv (doe - Int.fdiv doe 1460 + Int.fdiv doe 36524 - Int.fdiv doe 146096) 365
  let y := yoe + era * 400
  let doy := doe - (365 * yoe + Int.fdiv yoe 4 - Int.fdiv yoe 100)
  let mp := Int.fdiv (5 * doy + 2) 153
  let d := doy - Int.fdiv (153 * mp + 2) 5 + 1
  let m := if mp < 10 then mp + 3 else mp - 9
  (y + (if m ≤ 2 then 1 else 0), m, d)

/-! ### Excel serial dates (XLSX.SSF.parse_date_code, 1900 system) -/

/-- Days-since-epoch of 1900-01-01. -/
def days1900 : Int := daysFromCivil 1900 1 1

/-- XLSX.SSF.parse_date_code restricted to integral serials: the 1900
date system with the Lotus leap-year artifact (serial 60 renders as
1900-02-29, serial 0 as 1900-01-00), null outside [0, 2958465]. -/
def parseDateCode (v : Int) : Option (Int × Int × Int) :=
  if 2958465 < v ∨ v < 0 then none
  else if v = 60 then some (1900, 2, 29)
  else if v = 0 then some (1900, 1, 0)
  else
    let d := if 60 < v then v - 1 else v
    some (civilFromDays (days1900 + (d - 1)))

/-! ### The date-cell resolution of the upload loop -/

/-- Two-digit zero padding of a number (String(n).padStart(2, "0")). -/
def pad2 (i : Int) : String := padZeros 2 (jsIntRepr i)

/-- dateStr.split(/[-\/]/): split on every hyphen or slash, keeping
empty fragments. -/
def splitSepAux : List Char → List Char → List String
  | [], acc => [String.mk acc.reverse]
  | c :: cs, acc =>
    if c == '-' || c == '/' then String.mk acc.reverse :: splitSepAux cs []
    else splitSepAux cs (c :: acc)

/-- dateStr.split(/[-\/]/). -/
def splitDateSep (s : String) : List String := splitSepAux s.data []

/-- ToInteger(ToNumber(s)) for a date-part string under the decimal
grammar (whitespace-trimmed; empty coerces to 0; sign, digits and one
fractional point, truncated toward zero; anything else, including the
exotic Number forms, is NaN and yields none). -/
def jsNumberToInteger (s : String) : Option Int :=
  let cs := (s.data.dropWhile isJsWhitespace).reverse.dropWhile isJsWhitespace |>.reverse
  match cs with
  | [] => some 0
  | _ =>
    let neg := match cs with | '-' :: _ => true | _ => false
    let cs1 := match cs with | '-' :: rest => rest | '+' :: rest => rest | _ => cs
    let ip := cs1.takeWhile Char.isDigit
    let cs2 := cs1.drop ip.length
    match cs2 with
    | [] => if ip.isEmpty then none else some (if neg then -(digitsToNat ip : Int) else (digitsToNat ip : Int))
    | '.' :: rest =>
      let fp := rest.takeWhile Char.isDigit
      if (rest.drop fp.length).isEmpty && !(ip.isEmpty && fp.isEmpty) then
        some (if neg then -(digitsToNat ip : Int) else (digitsToNat ip : Int))
      else none
    | _ => none

/-- new Date(y, m - 1, d) from the three split parts in day-month-year
reading: numeric coercion of each part, the two-digit-year rule
(0..99 means 1900..1999), month and day rollover, and the JS Date range
clip (plus or minus 1e8 days); the result is days since epoch, none for
an Invalid Date. -/
def jsNewDateYMD (ys ms ds : String) : Option Int :=
  match jsNumberToInteger ys, jsNumberToInteger ms, jsNumberToInteger ds with
  | some y, some mo, some dy =>
    let y2 := if 0 ≤ y ∧ y ≤ 99 then 1900 + y else y
    let mIdx := mo - 1
    let ym := y2 + Int.fdiv mIdx 12
    let mn := mIdx - 12 * Int.fdiv mIdx 12
    let days := daysFromCivil ym (mn + 1) 1 + (dy - 1)
    if days.natAbs ≤ 100000000 then some days else none
  | _, _, _ => none

/-- The string-cell date parse of the upload loop, lines 594-604: the
direct new Date(dateStr) attempt (the engine parser, a collaborator
passed as dp) first; only if it fails, split on hyphen or slash and,
exactly when three parts result, build the date day-month-year. -/
def stringDateDays (dp : String → Option Int) (dateStr : String) : Option Int :=
  match dp dateStr with
  | some t => some t
  | none =>
    let parts := splitDateSep dateStr
    if parts.length = 3 then jsNewDateYMD (parts.getD 2 "") (parts.getD 1 "") (parts.getD 0 "")
    else none

/-- Date.prototype.toISOString calendar-date part: four-digit years
padded, larger years in expanded six-digit notation. -/
def isoOfCivil : Int × Int × Int → String
  | (y, m, d) =>
    if 0 ≤ y ∧ y ≤ 9999 then padZeros 4 (jsIntRepr y) ++ "-" ++ pad2 m ++ "-" ++ pad2 d
    else if 9999 < y then "+" ++ padZeros 6 (jsIntRepr y) ++ "-" ++ pad2 m ++ "-" ++ pad2 d
    else "-" ++ padZeros 6 (jsIntRepr (-y)) ++ "-" ++ pad2 m ++ "-" ++ pad2 d

/-- Lines 594-609: resolve a string date cell.  A parse is accepted
only when the year exceeds 1900; then shipment_date is the ISO calendar
date and month_year is getFullYear() dash two-digit month. -/
def resolveStringDate (dp : String → Option Int) (dateStr : String) : Option String × Option String :=
  match stringDateDays dp dateStr with
  | some days =>
    let c := civilFromDays days
    if 1900 < c.1 then (some (isoOfCivil c), some (jsIntRepr c.1 ++ "-" ++ pad2 c.2.1))
    else (none, none)
  | none => (none, none)

/-- Lines 585-591: resolve a numeric (Excel serial) date cell via
parse_date_code; both output fields use the template
y dash padded month (dash padded day). -/
def resolveSerialDate (n : Int) : Option String × Option String :=
  match parseDateCode n with
  | some c =>
    (some (jsIntRepr c.1 ++ "-" ++ pad2 c.2.1 ++ "-" ++ pad2 c.2.2),
     some (jsIntRepr c.1 ++ "-" ++ pad2 c.2.1))
  | none => (none, none)

/-! ### The alias lists of the upload route (src/server/index.js) -/

def declarationIdNames : List String :=
  ["Declaration ID", "DECLARATION_ID", "declaration_id", "Dec ID",
   "Declaration No", "DECLARATION_NO", "declaration_no", "Declaration_No",
   "DeclarationNo", "DECLARATIONNO", "Dec No", "DEC_NO", "DecNo",
   "SB No", "SB_No", "SB NO", "SB_NO", "SBNO", "Sb No",
   "Shipping Bill No", "SHIPPING_BILL_NO", "Shipping Bill Number",
   "Bill No", "BILL_NO", "Bill Number", "Reference No", "Ref No",
   "Invoice No", "INVOICE_NO", "Invoice Number", "ID", "Sr No", "SrNo",
   "S.No", "SNO", "Record ID", "RECORD_ID", "Unique ID"]

def exporterNames : List String :=
  ["Exporter Name", "EXPORTER_NAME", "exporter_name", "Exporter",
   "EXPORTER", "Indian Exporter", "INDIAN_EXPORTER", "Shipper",
   "SHIPPER", "Shipper Name", "Seller", "SELLER", "Seller Name",
   "Company", "Company Name", "COMPANY_NAME", "Supplier", "SUPPLIER"]

def consigneeNames : List String :=
  ["Consignee Name", "CONSIGNEE_NAME", "consignee_name", "Consignee",
   "CONSIGNEE", "Buyer", "BUYER", "Buyer Name", "BUYER_NAME",
   "Foreign Buyer", "FOREIGN_BUYER", "Importer", "IMPORTER",
   "Importer Name", "Customer", "CUSTOMER", "Customer Name",
   "Consinee Name", "CONSINEE_NAME", "Consinee", "CONSINEE"]

def productNames : List String :=
  ["Product Description", "PRODUCT_DESCRIPTION", "product_description",
   "Product", "PRODUCT", "Item", "ITEM", "Item Description",
   "ITEM_DESCRIPTION", "Description", "DESCRIPTION", "Goods",
   "GOODS", "Goods Description", "GOODS_DESCRIPTION", "Goods_Description",
   "Product Name", "PRODUCT_NAME", "Commodity", "COMMODITY",
   "HS Description", "Item Name", "ItemDescription"]

def hsCodeNames : List String :=
  ["HS Code", "HS_CODE", "hs_code", "HSCode", "HSCODE", "HS",
   "ITC Code", "ITC_CODE", "ITCCode", "ITC HS", "ITC_HS",
   "Tariff Code", "TARIFF_CODE", "Chapter", "CHAPTER"]

def quantityNames : List String :=
  ["Quantity", "QUANTITY", "quantity", "Qty", "QTY", "qty",
   "Unit Quantity", "UNIT_QUANTITY", "Net Quantity", "NET_QUANTITY",
   "Weight", "WEIGHT", "Net Weight", "NET_WEIGHT", "Gross Weight"]

def unitNames : List String :=
  ["Unit", "UNIT", "unit", "UQC", "UOM", "Unit of Measure",
   "UNIT_OF_MEASURE", "Quantity Unit", "QUANTITY_UNIT"]

def fobNames : List String :=
  ["FOB Value", "FOB_VALUE", "fob_value", "FOB", "Fob",
   "FOB USD", "FOB_USD", "Fob Usd", "FOB Usd", "Fob USD",
   "FOB INR", "FOB_INR", "Fob Inr", "Value",
   "VALUE", "Invoice Value", "INVOICE_VALUE", "Total Value",
   "TOTAL_VALUE", "Amount", "AMOUNT", "Price", "PRICE",
   "Value USD", "Value INR", "FOB (USD)", "FOB (INR)"]

def currencyNames : List String :=
  ["Currency", "CURRENCY", "currency", "Curr", "CURR",
   "Currency Code", "CURRENCY_CODE"]

def portLoadingNames : List String :=
  ["Port of Loading", "PORT_OF_LOADING", "port_of_loading",
   "Indian Port", "INDIAN_PORT", "Loading Port", "LOADING_PORT",
   "Port", "PORT", "Origin Port", "ORIGIN_PORT", "From Port",
   "Departure Port", "DEPARTURE_PORT", "POL", "Port Code"]

def portDischargeNames : List String :=
  ["Port of Discharge", "PORT_OF_DISCHARGE", "port_of_discharge",
   "Foreign Port", "FOREIGN_PORT", "Discharge Port", "DISCHARGE_PORT",
   "Destination Port", "DESTINATION_PORT", "To Port", "POD",
   "Arrival Port", "ARRIVAL_PORT", "Final Port"]

def countryNames : List String :=
  ["Country", "COUNTRY", "country", "Destination Country",
   "DESTINATION_COUNTRY", "Country of Destination", "COUNTRY_OF_DESTINATION",
   "Destination", "DESTINATION", "Foreign Country", "FOREIGN_COUNTRY",
   "Importing Country", "IMPORTING_COUNTRY", "To Country"]

def dateNames : List String :=
  ["Shipment Date", "SHIPMENT_DATE", "shipment_date", "Date", "DATE",
   "SB Date", "SB_DATE", "Shipping Date", "SHIPPING_DATE",
   "Bill Date", "BILL_DATE", "Export Date", "EXPORT_DATE",
   "Invoice Date", "INVOICE_DATE", "Dispatch Date", "DISPATCH_DATE"]

/-! ### Per-row field computation (upload loop, lines 548-665) -/

/-- JS x || 0 on a cell value. -/
def RawValue.or0 (v : RawValue) : RawValue := if v.truthy then v else RawValue.num 0

/-- The (x || '').toString().trim() pattern applied to string fields at
insert time. -/
def strField (v : RawValue) : String :=
  jsTrim (if v.truthy then v else RawValue.str "").jsString

/-- Line 561: strip every character that is not a digit, dot or hyphen
from the stringified value (the regex replace /[^0-9.-]/g). -/
def stripNonNumeric (s : String) : String :=
  String.mk (s.data.filter (fun c => c.isDigit || c == '.' || c == '-'))

/-- Line 561 combined with the insert-time fobValue || 0:
parseFloat(String(resolved || 0).replace(/[^0-9.-]/g, '')) || 0. -/
def fobValueOf (row : RawRow) : Rat :=
  ((jsParseFloat (stripNonNumeric ((findColumnValue row fobNames).or0.jsString))).getD 0 : Rat)

/-- Line 559 combined with the insert-time quantity || 0:
parseFloat(resolved || 0) || 0 (NaN becomes 0; a parsed 0 stays 0). -/
def quantityOf (row : RawRow) : Rat :=
  ((jsParseFloat ((findColumnValue row quantityNames).or0.jsString)).getD 0 : Rat)

/-- The resolved date cell. -/
def dateValueOf (row : RawRow) : RawValue := findColumnValue row dateNames

/-- Lines 580-611: shipment_date and month_year of a row.  A falsy date
cell (missing, empty, numeric 0) leaves both null; a numeric cell takes
the Excel-serial branch, anything else the string branch. -/
def dateFieldsOf (dp : String → Option Int) (row : RawRow) : Option String × Option String :=
  let dateValue := dateValueOf row
  if dateValue.truthy then
    match dateValue with
    | .num n => resolveSerialDate n
    | v => resolveStringDate dp v.jsString
  else (none, none)

/-! ### Identity-key synthesis (lines 613-621) -/

/-- UTF-8 bytes of one character. -/
def utf8Char (c : Char) : List Nat :=
  let n := c.toNat
  if n < 128 then [n]
  else if n < 2048 then [192 + n / 64, 128 + n % 64]
  else if n < 65536 then [224 + n / 4096, 128 + (n / 64) % 64, 128 + n % 64]
  else [240 + n / 262144, 128 + (n / 4096) % 64, 128 + (n / 64) % 64, 128 + n % 64]

/-- UTF-8 bytes of a string (Buffer.from(s)). -/
def utf8Bytes (s : String) : List Nat :=
  s.data.foldr (fun c acc => utf8Char c ++ acc) []

/-- The base64 alphabet. -/
def base64Alphabet : List Char :=
  "ABCDEFGHIJKLMNOPQRSTUVWXYZabcdefghijklmnopqrstuvwxyz0123456789+/".data

/-- One base64 output character. -/
def b64char (n : Nat) : Char := base64Alphabet.getD n 'A'

/-- Base64 of a byte list, three bytes to four characters, padded
with =. -/
def base64Chunks : List Nat → List Char
  | [] => []
  | [b1] => [b64char (b1 / 4), b64char ((b1 % 4) * 16), '=', '=']
  | [b1, b2] => [b64char (b1 / 4), b64char ((b1 % 4) * 16 + b2 / 16), b64char ((b2 % 16) * 4), '=']
  | b1 :: b2 :: b3 :: rest =>
    b64char (b1 / 4) :: b64char ((b1 % 4) * 16 + b2 / 16) ::
    b64char ((b2 % 16) * 4 + b3 / 64) :: b64char (b3 % 64) :: base64Chunks rest

/-- Buffer.from(s).toString('base64'). -/
def base64Encode (bytes : List Nat) : String := String.mk (base64Chunks bytes)

/-- s.slice(0, n) for the strings involved (all in the basic plane). -/
def takeChars (n : Nat) (s : String) : String := String.mk (s.data.take n)

/-- Line 617: the composite template
exporter - consignee - product - rawDate - fobValue. -/
def compositeOf (row : RawRow) : String :=
  (findColumnValue row exporterNames).jsString ++ "-" ++
  (findColumnValue row consigneeNames).jsString ++ "-" ++
  (findColumnValue row productNames).jsString ++ "-" ++
  (dateValueOf row).jsString ++ "-" ++
  qToJsString (fobValueOf row)

/-- Lines 613-621: the unique id of a row.  A truthy resolved
declaration id is kept as is; otherwise, when the composite is not the
degenerate "----0", an AUTO id is synthesized from the first twenty
base64 characters of the composite plus the random suffix; otherwise
the falsy resolved value is kept (and the row will count as no-id). -/
def uniqueIdOf (row : RawRow) (suffix : String) : RawValue :=
  let declarationId := findColumnValue row declarationIdNames
  if declarationId.truthy then declarationId
  else if compositeOf row ≠ "----0" then
    RawValue.str ("AUTO-" ++ takeChars 20 (base64Encode (utf8Bytes (compositeOf row))) ++ "-" ++ suffix)
  else declarationId

/-! ### The persisted record and the store -/

/-- The exports row the insert statement writes (lines 626-651). -/
structure ShipmentRecord where
  declaration_id : String
  exporter_name : String
  consignee_name : String
  product_description : String
  product_category : String
  data_type : String
  hs_code : String
  quantity : Rat
  unit : String
  fob_value : Rat
  fob_currency : String
  port_of_loading : String
  port_of_discharge : String
  country_of_destination : String
  shipment_date : Option String
  month_year : Option String
  upload_batch : String
deriving DecidableEq

/-- The store is the exports table content, in insertion order. -/
abbrev Store := List ShipmentRecord

/-- The column tuple of the unique index idx_exports_unique
(line 146-149): declaration_id, shipment_date, product_description,
hs_code, quantity, fob_value. -/
def uniqueTuple (r : ShipmentRecord) : String × Option String × String × String × Rat × Rat :=
  (r.declaration_id, r.shipment_date, r.product_description, r.hs_code, r.quantity, r.fob_value)

/-- SQLite unique-index conflict between a stored row and a candidate
row: every indexed column must compare equal under SQL semantics, where
NULLs are pairwise distinct.  The insert binds non-null values for
declaration_id, product_description, hs_code, quantity and fob_value,
so the only indexed column that can be NULL is shipment_date — a row
with a NULL shipment_date therefore never conflicts with anything. -/
def uniqueConflict (a b : ShipmentRecord) : Bool :=
  match a.shipment_date, b.shipment_date with
  | some _, some _ => decide (uniqueTuple a = uniqueTuple b)
  | _, _ => false

/-- One insert against idx_exports_unique: fails (none) exactly when
some stored row conflicts under SQLite unique-index semantics. -/
def insertRecord (store : Store) (r : ShipmentRecord) : Option Store :=
  if store.any (fun s => uniqueConflict s r) then none
  else some (store ++ [r])

/-- The record a row produces, with the insert-time coercions of
lines 633-651: trimming, uppercasing of exporter and consignee, KGS and
USD defaults. -/
def mkRecord (dp : String → Option Int) (dataType uploadBatch suffix : String) (row : RawRow) : ShipmentRecord :=
  let df := dateFieldsOf dp row
  { declaration_id := jsTrim (uniqueIdOf row suffix).jsString
  , exporter_name := jsToUpper (strField (findColumnValue row exporterNames))
  , consignee_name := jsToUpper (strField (findColumnValue row consigneeNames))
  , product_description := strField (findColumnValue row productNames)
  , product_category := dataType
  , data_type := dataType
  , hs_code := strField (findColumnValue row hsCodeNames)
  , quantity := quantityOf row
  , unit := (if (findColumnValue row unitNames).truthy then findColumnValue row unitNames
             else RawValue.str "KGS").jsString |> jsTrim
  , fob_value := fobValueOf row
  , fob_currency := (if (findColumnValue row currencyNames).truthy then findColumnValue row currencyNames
                     else RawValue.str "USD").jsString |> jsTrim
  , port_of_loading := strField (findColumnValue row portLoadingNames)
  , port_of_discharge := strField (findColumnValue row portDischargeNames)
  , country_of_destination := strField (findColumnValue row countryNames)
  , shipment_date := df.1
  , month_year := df.2
  , upload_batch := uploadBatch }

/-! ### The import loop -/

/-- Mutable state of the upload loop: the table plus the three
counters. -/
structure RunState where
  store : Store
  inserted : Nat
  skipped : Nat
  noIdCount : Nat

/-- Lines 613-665 for one row: with a truthy unique id the insert is
attempted (insertFails models a non-uniqueness persistence failure of
this row, thrown and caught like a duplicate), a failed insert of
either kind counts skipped; without one the row counts no-id and
skipped. -/
def processRow (dp : String → Option Int) (dataType uploadBatch suffix : String)
    (insertFails : Bool) (st : RunState) (row : RawRow) : RunState :=
  let uid := uniqueIdOf row suffix
  if uid.truthy then
    if insertFails then { st with skipped := st.skipped + 1 }
    else
      match insertRecord st.store (mkRecord dp dataType uploadBatch suffix row) with
      | some s2 => { st with store := s2, inserted := st.inserted + 1 }
      | none => { st with skipped := st.skipped + 1 }
  else { st with noIdCount := st.noIdCount + 1, skipped := st.skipped + 1 }

/-- The row loop, carrying the row index that drives the per-row random
suffix and failure oracles. -/
def runAux (dp : String → Option Int) (dataType uploadBatch : String)
    (suffixes : Nat → String) (failAt : Nat → Bool) : Nat → RunState → List RawRow → RunState
  | _, st, [] => st
  | i, st, row :: rest =>
    runAux dp dataType uploadBatch suffixes failAt (i + 1)
      (processRow dp dataType uploadBatch (suffixes i) (failAt i) st row) rest

/-- Fresh counters over an existing table. -/
def initState (store0 : Store) : RunState :=
  { store := store0, inserted := 0, skipped := 0, noIdCount := 0 }

/-- The whole import loop of one upload over already-parsed rows. -/
def runImport (dp : String → Option Int) (dataType uploadBatch : String)
    (suffixes : Nat → String) (failAt : Nat → Bool) (store0 : Store) (rows : List RawRow) : RunState :=
  runAux dp dataType uploadBatch suffixes failAt 0 (initState store0) rows

/-! ### The upload route handler (lines 401-686) -/

/-- The success JSON shape of lines 672-680.  The handler can never
construct it: execution dies at line 444 first (see serverUpload). -/
structure ImportSummary where
  success : Bool
  message : String
  inserted : Nat
  skipped : Nat
  noIdCount : Nat
  dataType : String
  columnsFound : List String
deriving DecidableEq

/-- What the route hands back: an HTTP error status with message, or
the summary. -/
inductive UploadResult where
  | err : Nat → String → UploadResult
  | ok : ImportSummary → UploadResult
deriving DecidableEq

/-- The message of the ReferenceError thrown by line 444.  The
identifier autoSave is declared nowhere in the repository, and
src/server/index.js is an ES module, hence strict-mode code, where
assignment to an unresolvable identifier throws. -/
def autoSaveErrorMessage : String := "autoSave is not defined"

/-- The dataType guard of lines 411-414. -/
def validDataType : Option String → Bool
  | some dt => dt == "fruits" || dt == "vegetables"
  | none => false

/-- The POST /api/upload handler of src/server/index.js on an
already-parsed workbook: the file and dataType guards (lines 404-414),
the empty-workbook guard (line 425), and then the statement
autoSave = false of line 444, which sits inside the try block before
the row loop.  autoSave is an undeclared identifier in this strict-mode
ES module, so the assignment throws a ReferenceError that the catch of
line 681 turns into a 500 with the message autoSave is not defined —
before any row is processed, so the store is left untouched.  The row
loop of lines 548-665 (modelled by runImport) and the
fs.unlinkSync / success response of lines 670-680 are dead code on
every path through this handler. -/
def serverUpload (filePresent : Bool) (dataType : Option String)
    (store0 : Store) (rows : List RawRow) : UploadResult × Store :=
  if !filePresent then (.err 400 "No file uploaded", store0)
  else if !validDataType dataType then
    (.err 400 "Invalid data type. Must be \x22fruits\x22 or \x22vegetables\x22", store0)
  else if rows.length = 0 then (.err 400 "Excel file is empty", store0)
  else (.err 500 autoSaveErrorMessage, store0)

/-! ### Auxiliary definitions used by the statements below -/

/-- The components of the unique-index tuple a row will produce,
independent of batch tag, category and random suffix (the suffix only
matters for rows without a truthy declaration id). -/
def rowTuple (dp : String → Option Int) (row : RawRow) : String × Option String × String × String × Rat × Rat :=
  (jsTrim (findColumnValue row declarationIdNames).jsString,
   (dateFieldsOf dp row).1,
   strField (findColumnValue row productNames),
   strField (findColumnValue row hsCodeNames),
   quantityOf row,
   fobValueOf row)

/-- The trimmed declaration id a row with a truthy declaration id
persists. -/
def declIdStr (row : RawRow) : String :=
  jsTrim (findColumnValue row declarationIdNames).jsString

/-- The rows whose index the failure oracle spares, starting the count
at i: exactly the rows the loop inserts when they are fresh. -/
def keptRows (failAt : Nat → Bool) : Nat → List RawRow → List RawRow
  | _, [] => []
  | i, r :: rest =>
    if failAt i then keptRows failAt (i + 1) rest
    else r :: keptRows failAt (i + 1) rest

/-- Shape test for a ten-character YYYY-MM-DD string: digits with
hyphens at positions four and seven. -/
def checkYmdList (l : List Char) : Bool :=
  l.length = 10 && l.getD 4 ' ' == '-' && l.getD 7 ' ' == '-' &&
  ([0, 1, 2, 3, 5, 6, 8, 9].all (fun i => (l.getD i ' ').isDigit))

/-- Shape test for a YYYY-MM-DD string. -/
def checkYmd (s : String) : Bool := checkYmdList s.data

/-- A row none of whose headers matches any alias list even by
substring, so every canonical field resolves to empty and the identity
composite is degenerate. -/
def noIdRow : RawRow := [("qq", RawValue.str "v")]

/-- Ten rows with distinct natural declaration ids. -/
def tenRows : List RawRow :=
  [[("Declaration ID", RawValue.str "D0")], [("Declaration ID", RawValue.str "D1")],
   [("Declaration ID", RawValue.str "D2")], [("Declaration ID", RawValue.str "D3")],
   [("Declaration ID", RawValue.str "D4")], [("Declaration ID", RawValue.str "D5")],
   [("Declaration ID", RawValue.str "D6")], [("Declaration ID", RawValue.str "D7")],
   [("Declaration ID", RawValue.str "D8")], [("Declaration ID", RawValue.str "D9")]]

/-- A row whose only header normalizes to a key that collides with a
higher-priority alias of the list below, while a lower-priority alias
matches exactly. -/
def resolverPriorityRow : RawRow :=
  [("alpha beta", RawValue.str "X"), ("Gamma", RawValue.str "Y")]

/-- Alias list for the counterexample row: the first alias only matches
the first header after normalization, the second alias matches the
second header exactly. -/
def resolverPriorityAliases : List String := ["Alpha Beta", "Gamma"]

/-! ## Resolver lemmas -/

lemma pass1_none_iff (row : RawRow) (km : List (String × String)) :
    ∀ names : List String, pass1 row km names = none ↔ ∀ n ∈ names, aliasHit row km n = none := by
  intro names
  induction names with
  | nil => simp [pass1]
  | cons a rest ih =>
    simp only [pass1]
    cases h : aliasHit row km a with
    | some v => simp [h]
    | none => simpa [h] using ih

lemma pass1_first (row : RawRow) (km : List (String × String)) :
    ∀ (names : List String) (v : RawValue), pass1 row km names = some v →
      ∃ i, i < names.length ∧ aliasHit row km (names.getD i "") = some v ∧
        ∀ j, j < i → aliasHit row km (names.getD j "") = none := by
  intro names
  induction names with
  | nil => intro v h; simp [pass1] at h
  | cons a rest ih =>
    intro v h
    simp only [pass1] at h
    cases ha : aliasHit row km a with
    | some w =>
      rw [ha] at h
      refine ⟨0, by simp, ?_, by omega⟩
      simpa using ha.trans h
    | none =>
      rw [ha] at h
      obtain ⟨i, hi, h1, h2⟩ := ih v h
      refine ⟨i + 1, by simpa using hi, by simpa using h1, ?_⟩
      intro j hj
      cases j with
      | zero => simpa using ha
      | succ j => simpa using h2 j (by omega)

lemma findColumnValue_of_pass1 (row : RawRow) (names : List String) (v : RawValue)
    (h : pass1 row (rowKeyMap row) names = some v) : findColumnValue row names = v := by
  simp [findColumnValue, h]

/-! ## C1 -/

/-- C1 counterexample: the alias list resolverPriorityAliases has the
exact-header match Gamma with the non-empty value Y in
resolverPriorityRow, yet findColumnValue returns X, the value of a
merely normalized match for the higher-priority alias Alpha Beta.  This
refutes the claim that the exact-match pass over all aliases completes
before any normalized match is considered. -/
theorem C1_exact_priority_counterexample :
    rowGet resolverPriorityRow "Gamma" = some (RawValue.str "Y") ∧
    (RawValue.str "Y").nonEmpty = true ∧
    "Gamma" ∈ resolverPriorityAliases ∧
    findColumnValue resolverPriorityRow resolverPriorityAliases = RawValue.str "X" ∧
    RawValue.str "X" ≠ RawValue.str "Y" := by
  refine ⟨by decide, by decide, by decide, ?_, by decide⟩
  decide

/-- C1 amended: within one alias the exact match is tried before the
normalized match, and the resolver returns the hit of the first alias
in priority order whose exact-or-normalized lookup succeeds; whenever
some alias has an exact non-empty match, the substring pass is never
reached, and the result is that first exact-or-normalized hit — so an
exact match for a lower-priority alias loses to a normalized match for
a higher-priority alias, but nothing past the first pass can win. -/
theorem C1_exact_priority_amended :
    (∀ (row : RawRow) (km : List (String × String)) (a : String) (v : RawValue),
      exactHit row a = some v → aliasHit row km a = some v)
    ∧ (∀ (row : RawRow) (aliases : List String),
      (∃ a ∈ aliases, exactHit row a ≠ none) →
      ∃ i, i < aliases.length ∧
        aliasHit row (rowKeyMap row) (aliases.getD i "") = some (findColumnValue row aliases) ∧
        ∀ j, j < i → aliasHit row (rowKeyMap row) (aliases.getD j "") = none) := by
  constructor
  · intro row km a v h
    simp [aliasHit, firstSome, h]
  · intro row aliases ⟨a, ha, hex⟩
    cases hp : pass1 row (rowKeyMap row) aliases with
    | none =>
      exfalso
      have := (pass1_none_iff row (rowKeyMap row) aliases).mp hp a ha
      cases he : exactHit row a with
      | none => exact hex he
      | some v => simp [aliasHit, firstSome, he] at this
    | some v =>
      rw [findColumnValue_of_pass1 row aliases v hp]
      exact pass1_first row (rowKeyMap row) aliases v hp

/-- C1 witness: the amended statement applied to the counterexample
row, where the exact hit for Gamma exists. -/
theorem C1_exact_priority_witness :
    ∃ i, i < resolverPriorityAliases.length ∧
      aliasHit resolverPriorityRow (rowKeyMap resolverPriorityRow)
        (resolverPriorityAliases.getD i "") =
        some (findColumnValue resolverPriorityRow resolverPriorityAliases) ∧
      ∀ j, j < i → aliasHit resolverPriorityRow (rowKeyMap resolverPriorityRow)
        (resolverPriorityAliases.getD j "") = none :=
  C1_exact_priority_amended.2 resolverPriorityRow resolverPriorityAliases
    ⟨"Gamma", by decide, by decide⟩

/-! ## C8 -/

/-- C8: the resolver treats the number 0 and the string "0" as present
values — an alias whose exact row value is 0 (or "0") resolves to that
value — and a value is passed over as empty exactly when it is null or
its stringification trims to the empty string (absence of the key,
JS undefined, is the none case of the lookup itself). -/
theorem C8_zero_is_present :
    (∀ (row : RawRow) (a : String) (rest : List String),
      rowGet row a = some (RawValue.num 0) →
      findColumnValue row (a :: rest) = RawValue.num 0)
    ∧ (∀ (row : RawRow) (a : String) (rest : List String),
      rowGet row a = some (RawValue.str "0") →
      findColumnValue row (a :: rest) = RawValue.str "0")
    ∧ (∀ v : RawValue, v.nonEmpty = false ↔ (v = RawValue.null ∨ jsTrim v.jsString = "")) := by
  refine ⟨?_, ?_, ?_⟩
  · intro row a rest h
    have hne : (RawValue.num 0).nonEmpty = true := by decide
    apply findColumnValue_of_pass1
    simp [pass1, aliasHit, firstSome, exactHit, h, hne]
  · intro row a rest h
    have hne : (RawValue.str "0").nonEmpty = true := by decide
    apply findColumnValue_of_pass1
    simp [pass1, aliasHit, firstSome, exactHit, h, hne]
  · intro v
    cases v with
    | null => simp [RawValue.nonEmpty]
    | str s => simp [RawValue.nonEmpty, RawValue.jsString]
    | num n => simp [RawValue.nonEmpty, RawValue.jsString]

/-- C8 witness: concrete rows carrying 0 and "0", and the emptiness
characterization at a whitespace-only string value. -/
theorem C8_zero_is_present_witness :
    findColumnValue [("K", RawValue.num 0)] ["K"] = RawValue.num 0 ∧
    findColumnValue [("K", RawValue.str "0")] ["K"] = RawValue.str "0" ∧
    ((RawValue.str "  ").nonEmpty = false ↔
      (RawValue.str "  " = RawValue.null ∨ jsTrim (RawValue.str "  ").jsString = "")) :=
  ⟨C8_zero_is_present.1 [("K", RawValue.num 0)] "K" [] (by decide),
   C8_zero_is_present.2.1 [("K", RawValue.str "0")] "K" [] (by decide),
   C8_zero_is_present.2.2 (RawValue.str "  ")⟩

/-! ## C5 -/

/-- C5: FOB coercion stringifies the resolved value, strips every
character that is not a digit, dot or hyphen, and parses the remainder
as a decimal with 0 as the failure default; in particular a resolved
value of the string dollar 1,200.50 yields fob_value 1200.50. -/
theorem C5_fob_coercion :
    (∀ row : RawRow, findColumnValue row fobNames = RawValue.str "$1,200.50" →
      fobValueOf row = (1200.5 : Rat))
    ∧ stripNonNumeric "$1,200.50" = "1200.50"
    ∧ (∀ (row : RawRow) (s : String), findColumnValue row fobNames = RawValue.str s →
      jsParseFloat (stripNonNumeric s) = none → fobValueOf row = 0) := by
  refine ⟨?_, by decide, ?_⟩
  · intro row h
    unfold fobValueOf
    rw [h]
    have h0 : stripNonNumeric (RawValue.or0 (RawValue.str "$1,200.50")).jsString = "1200.50" := by
      decide
    rw [h0]
    have h1 : jsParseFloat "1200.50" = some (ratOfParts false ['1', '2', '0', '0'] ['5', '0'] 0) := rfl
    rw [h1, Option.getD_some]
    have d1 : digitsToNat ['1', '2', '0', '0'] = 1200 := by decide
    have d2 : digitsToNat ['5', '0'] = 50 := by decide
    unfold ratOfParts
    rw [d1, d2]
    norm_num
  · intro row s h1 h2
    unfold fobValueOf
    rw [h1]
    by_cases hs : s = ""
    · subst hs
      have h0 : stripNonNumeric (RawValue.or0 (RawValue.str "")).jsString = "0" := by decide
      rw [h0]
      have h3 : jsParseFloat "0" = some (ratOfParts false ['0'] [] 0) := rfl
      rw [h3, Option.getD_some]
      have d1 : digitsToNat ['0'] = 0 := by decide
      have d2 : digitsToNat ([] : List Char) = 0 := rfl
      unfold ratOfParts
      rw [d1, d2]
      norm_num
    · have ht : (RawValue.str s).or0 = RawValue.str s := by
        simp [RawValue.or0, RawValue.truthy, hs]
      rw [ht]
      simp [RawValue.jsString, h2]

/-- C5 witness: the scenario row of the spec. -/
theorem C5_fob_coercion_witness :
    fobValueOf [("Exporter", RawValue.str "ACME"), ("FOB (USD)", RawValue.str "$1,200.50"),
      ("Date", RawValue.num 45312)] = (1200.5 : Rat) :=
  C5_fob_coercion.1 _ (by decide)

/-! ## Loop accounting lemmas -/

lemma processRow_split (dp : String → Option Int) (dt b s : String) (f : Bool)
    (st : RunState) (row : RawRow) :
    processRow dp dt b s f st row = { st with skipped := st.skipped + 1 } ∨
    (∃ s2, processRow dp dt b s f st row = { st with store := s2, inserted := st.inserted + 1 }) ∨
    processRow dp dt b s f st row =
      { st with noIdCount := st.noIdCount + 1, skipped := st.skipped + 1 } := by
  unfold processRow
  cases h : (uniqueIdOf row s).truthy with
  | false => simp [h]
  | true =>
    cases f with
    | true => simp [h]
    | false =>
      cases hi : insertRecord st.store (mkRecord dp dt b s row) with
      | none => simp [h, hi]
      | some s2 => exact Or.inr (Or.inl ⟨s2, by simp [h, hi]⟩)

lemma runAux_counts (dp : String → Option Int) (dt b : String) (suf : Nat → String)
    (fail : Nat → Bool) :
    ∀ (rows : List RawRow) (i : Nat) (st : RunState),
      (runAux dp dt b suf fail i st rows).inserted + (runAux dp dt b suf fail i st rows).skipped
        = st.inserted + st.skipped + rows.length ∧
      (runAux dp dt b suf fail i st rows).noIdCount + st.skipped
        ≤ st.noIdCount + (runAux dp dt b suf fail i st rows).skipped := by
  intro rows
  induction rows with
  | nil => intro i st; simp [runAux]
  | cons r rest ih =>
    intro i st
    simp only [runAux]
    obtain ⟨h1, h2⟩ := ih (i + 1) (processRow dp dt b (suf i) (fail i) st r)
    rcases processRow_split dp dt b (suf i) (fail i) st r with h | ⟨s2, h⟩ | h <;>
      rw [h] at h1 h2 ⊢ <;> simp at h1 h2 ⊢ <;> omega

/-! ## C10 -/

/-- C10: every processed row increments exactly one of inserted or
skipped (with a no-id row incrementing noIdCount and skipped together),
so a run over n rows ends with inserted + skipped = n and the no-id
count contained in the skipped count. -/
theorem C10_counter_invariant :
    (∀ (dp : String → Option Int) (dt b s : String) (f : Bool) (st : RunState) (row : RawRow),
      (processRow dp dt b s f st row).inserted + (processRow dp dt b s f st row).skipped
        = st.inserted + st.skipped + 1)
    ∧ (∀ (dp : String → Option Int) (dt b : String) (suf : Nat → String) (fail : Nat → Bool)
        (store0 : Store) (rows : List RawRow),
      (runImport dp dt b suf fail store0 rows).inserted
          + (runImport dp dt b suf fail store0 rows).skipped = rows.length
        ∧ (runImport dp dt b suf fail store0 rows).noIdCount
          ≤ (runImport dp dt b suf fail store0 rows).skipped) := by
  constructor
  · intro dp dt b s f st row
    rcases processRow_split dp dt b s f st row with h | ⟨s2, h⟩ | h <;> rw [h] <;> simp <;> omega
  · intro dp dt b suf fail store0 rows
    obtain ⟨h1, h2⟩ := runAux_counts dp dt b suf fail rows 0 (initState store0)
    unfold runImport
    constructor
    · simp only [initState] at h1 ⊢
      omega
    · simp only [initState] at h2 ⊢
      omega

/-! ## C6 -/

/-- C6: when the declaration id resolves to the empty string, a
degenerate identity composite (the literal "----0") leads to no key
being synthesized — the value stays empty and the row is counted no-id
and skipped without touching the store — while a non-degenerate
composite yields the synthesized AUTO key: the first twenty base64
characters of the composite bytes plus the random suffix. -/
theorem C6_degenerate_composite :
    ∀ (dp : String → Option Int) (dt b suffix : String) (fail : Bool) (st : RunState) (row : RawRow),
      findColumnValue row declarationIdNames = RawValue.str "" →
      ((compositeOf row = "----0" →
          uniqueIdOf row suffix = RawValue.str "" ∧
          processRow dp dt b suffix fail st row =
            { st with noIdCount := st.noIdCount + 1, skipped := st.skipped + 1 })
       ∧ (compositeOf row ≠ "----0" →
          uniqueIdOf row suffix =
            RawValue.str ("AUTO-" ++ takeChars 20 (base64Encode (utf8Bytes (compositeOf row)))
              ++ "-" ++ suffix))) := by
  intro dp dt b suffix fail st row h
  constructor
  · intro hc
    have hu : uniqueIdOf row suffix = RawValue.str "" := by
      simp [uniqueIdOf, h, hc, RawValue.truthy]
    refine ⟨hu, ?_⟩
    simp [processRow, hu, RawValue.truthy]
  · intro hc
    simp [uniqueIdOf, h, hc, RawValue.truthy]

/-- C6 witness: the all-empty row, whose composite is degenerate, and
the import state after processing it. -/
theorem C6_degenerate_composite_witness :
    (compositeOf noIdRow = "----0" →
      uniqueIdOf noIdRow "s1" = RawValue.str "" ∧
      processRow (fun _ => none) "fruits" "0-fruits" "s1" false (initState []) noIdRow =
        { store := [], inserted := 0, skipped := 0 + 1, noIdCount := 0 + 1 })
    ∧ (compositeOf noIdRow ≠ "----0" →
      uniqueIdOf noIdRow "s1" =
        RawValue.str ("AUTO-" ++ takeChars 20 (base64Encode (utf8Bytes (compositeOf noIdRow)))
          ++ "-" ++ "s1")) :=
  C6_degenerate_composite (fun _ => none) "fruits" "0-fruits" "s1" false (initState []) noIdRow
    (by decide)

/-! ## C2 -/

/-- C2: the success summary is unreachable in src/server/index.js.  For
every structurally valid upload (a file present, a non-empty parsed row
set, a valid category tag) the handler throws at line 444, inside the
try block and before the row loop: autoSave = false assigns an
identifier that is declared nowhere in the repository, which in this
strict-mode ES module raises ReferenceError: autoSave is not defined.
The catch of line 681 turns it into a 500, so the caller never receives
the ImportSummary of line 672, and no row is processed or persisted —
the store is returned unchanged. -/
theorem C2_success_summary_unreachable :
    ∀ (dt : String) (store0 : Store) (rows : List RawRow),
      rows ≠ [] →
      (dt = "fruits" ∨ dt = "vegetables") →
      serverUpload true (some dt) store0 rows =
        (UploadResult.err 500 autoSaveErrorMessage, store0) := by
  intro dt store0 rows hne hdt
  have hv : validDataType (some dt) = true := by
    rcases hdt with h | h <;> simp [validDataType, h]
  have hlen : ¬(rows.length = 0) := by simpa using hne
  simp [serverUpload, hv, hlen]

/-- C2 witness: a one-row upload with the fruits tag dies with the
autoSave ReferenceError and leaves the store empty. -/
theorem C2_success_summary_unreachable_witness :
    serverUpload true (some "fruits") [] [[("Declaration ID", RawValue.str "D1")]] =
      (UploadResult.err 500 autoSaveErrorMessage, []) :=
  C2_success_summary_unreachable "fruits" [] [[("Declaration ID", RawValue.str "D1")]]
    (by decide) (Or.inl rfl)

/-! ## Identity and insert lemmas -/

lemma uniqueIdOf_truthy (row : RawRow) (s : String)
    (h : (findColumnValue row declarationIdNames).truthy = true) :
    uniqueIdOf row s = findColumnValue row declarationIdNames := by
  simp [uniqueIdOf, h]

lemma uniqueTuple_mkRecord (dp : String → Option Int) (dt b s : String) (row : RawRow)
    (h : (findColumnValue row declarationIdNames).truthy = true) :
    uniqueTuple (mkRecord dp dt b s row) = rowTuple dp row := by
  unfold uniqueTuple mkRecord rowTuple
  rw [uniqueIdOf_truthy row s h]

lemma mkRecord_date (dp : String → Option Int) (dt b s : String) (row : RawRow) :
    (mkRecord dp dt b s row).shipment_date = (dateFieldsOf dp row).1 := rfl

lemma uniqueConflict_iff (s r : ShipmentRecord) (d : String) (hd : r.shipment_date = some d) :
    uniqueConflict s r = true ↔ uniqueTuple s = uniqueTuple r := by
  unfold uniqueConflict
  cases hs : s.shipment_date with
  | none =>
    rw [hd]
    simp only [Bool.false_eq_true, false_iff]
    intro he
    have : s.shipment_date = r.shipment_date := congrArg (fun t => t.2.1) he
    rw [hs, hd] at this
    exact Option.noConfusion this
  | some ds =>
    rw [hd]
    simp

lemma uniqueConflict_declId (s r : ShipmentRecord) (h : uniqueConflict s r = true) :
    s.declaration_id = r.declaration_id := by
  unfold uniqueConflict at h
  cases hs : s.shipment_date <;> cases hr : r.shipment_date <;>
      rw [hs, hr] at h <;> simp at h
  exact congrArg (fun t => t.1) h

lemma insertRecord_none_iff (store : Store) (r : ShipmentRecord) :
    insertRecord store r = none ↔ ∃ s ∈ store, uniqueConflict s r = true := by
  have hany : (store.any (fun s => uniqueConflict s r) = true)
      ↔ ∃ s ∈ store, uniqueConflict s r = true := List.any_eq_true
  rw [← hany]
  unfold insertRecord
  cases h : store.any (fun s => uniqueConflict s r) with
  | true => simp [h]
  | false => simp [h]

lemma insertRecord_dup_iff (store : Store) (r : ShipmentRecord) (d : String)
    (hd : r.shipment_date = some d) :
    insertRecord store r = none ↔ uniqueTuple r ∈ store.map uniqueTuple := by
  rw [insertRecord_none_iff]
  constructor
  · rintro ⟨s, hs, hc⟩
    rw [← (uniqueConflict_iff s r d hd).mp hc]
    exact List.mem_map_of_mem uniqueTuple hs
  · intro hm
    rcases List.mem_map.mp hm with ⟨s, hs, he⟩
    exact ⟨s, hs, (uniqueConflict_iff s r d hd).mpr he⟩

lemma insertRecord_some (store : Store) (r : ShipmentRecord) (s2 : Store)
    (h : insertRecord store r = some s2) : s2 = store ++ [r] := by
  unfold insertRecord at h
  cases ha : store.any (fun s => uniqueConflict s r) with
  | true => rw [ha] at h; simp at h
  | false => rw [ha] at h; simp at h; exact h.symm

/-! ## Absorption and coverage of the import loop -/

lemma runAux_absorb (dp : String → Option Int) (dt b : String) (suf : Nat → String) :
    ∀ (rows : List RawRow) (i : Nat) (st : RunState),
      (∀ r ∈ rows, (findColumnValue r declarationIdNames).truthy = true) →
      (∀ r ∈ rows, ∃ d, (dateFieldsOf dp r).1 = some d) →
      (∀ r ∈ rows, rowTuple dp r ∈ st.store.map uniqueTuple) →
      runAux dp dt b suf (fun _ => false) i st rows =
        { store := st.store, inserted := st.inserted, skipped := st.skipped + rows.length,
          noIdCount := st.noIdCount } := by
  intro rows
  induction rows with
  | nil => intro i st h1 hd h2; simp [runAux]
  | cons r rest ih =>
    intro i st h1 hd h2
    have htr := h1 r (by simp)
    have hmem := h2 r (by simp)
    rcases hd r (by simp) with ⟨d, hdd⟩
    have hrec : insertRecord st.store (mkRecord dp dt b (suf i) r) = none := by
      rw [insertRecord_dup_iff st.store _ d (by rw [mkRecord_date]; exact hdd),
        uniqueTuple_mkRecord dp dt b (suf i) r htr]
      exact hmem
    have hut : (uniqueIdOf r (suf i)).truthy = true := by
      rw [uniqueIdOf_truthy r (suf i) htr]; exact htr
    have hpr : processRow dp dt b (suf i) false st r = { st with skipped := st.skipped + 1 } := by
      simp [processRow, hut, hrec]
    simp only [runAux, hpr]
    rw [ih (i + 1) { st with skipped := st.skipped + 1 }
      (fun r2 hr2 => h1 r2 (by simp [hr2])) (fun r2 hr2 => hd r2 (by simp [hr2]))
      (fun r2 hr2 => h2 r2 (by simp [hr2]))]
    simp only [RunState.mk.injEq, List.length_cons, true_and, and_true, eq_self_iff_true]
    omega

lemma runAux_covers (dp : String → Option Int) (dt b : String) (suf : Nat → String) :
    ∀ (rows : List RawRow) (i : Nat) (st : RunState),
      (∀ r ∈ rows, (findColumnValue r declarationIdNames).truthy = true) →
      (∀ r ∈ rows, ∃ d, (dateFieldsOf dp r).1 = some d) →
      (∀ x ∈ st.store, x ∈ (runAux dp dt b suf (fun _ => false) i st rows).store)
      ∧ (∀ r ∈ rows,
          rowTuple dp r ∈ (runAux dp dt b suf (fun _ => false) i st rows).store.map uniqueTuple) := by
  intro rows
  induction rows with
  | nil => intro i st _ _; simp [runAux]
  | cons r rest ih =>
    intro i st h1 hd
    have htr := h1 r (by simp)
    have hut : (uniqueIdOf r (suf i)).truthy = true := by
      rw [uniqueIdOf_truthy r (suf i) htr]; exact htr
    cases hi : insertRecord st.store (mkRecord dp dt b (suf i) r) with
    | some s2 =>
      have hs2 := insertRecord_some st.store (mkRecord dp dt b (suf i) r) s2 hi
      have hpr : processRow dp dt b (suf i) false st r =
          { st with store := s2, inserted := st.inserted + 1 } := by
        simp [processRow, hut, hi]
      obtain ⟨m1, m2⟩ := ih (i + 1) { st with store := s2, inserted := st.inserted + 1 }
        (fun r2 hr2 => h1 r2 (by simp [hr2])) (fun r2 hr2 => hd r2 (by simp [hr2]))
      simp only [runAux, hpr]
      constructor
      · intro x hx
        exact m1 x (by simp [hs2]; exact Or.inl hx)
      · intro r2 hr2
        rcases List.mem_cons.mp hr2 with he | hr2
        · subst he
          have hin : mkRecord dp dt b (suf i) r2 ∈
              (runAux dp dt b suf (fun _ => false) (i + 1)
                { st with store := s2, inserted := st.inserted + 1 } rest).store :=
            m1 _ (by simp [hs2])
          rw [← uniqueTuple_mkRecord dp dt b (suf i) r2 htr]
          exact List.mem_map_of_mem uniqueTuple hin
        · exact m2 r2 hr2
    | none =>
      have hpr : processRow dp dt b (suf i) false st r = { st with skipped := st.skipped + 1 } := by
        simp [processRow, hut, hi]
      obtain ⟨m1, m2⟩ := ih (i + 1) { st with skipped := st.skipped + 1 }
        (fun r2 hr2 => h1 r2 (by simp [hr2])) (fun r2 hr2 => hd r2 (by simp [hr2]))
      simp only [runAux, hpr]
      constructor
      · intro x hx
        exact m1 x (by simpa using hx)
      · intro r2 hr2
        rcases List.mem_cons.mp hr2 with he | hr2
        · subst he
          rcases hd r2 (by simp) with ⟨d, hdd⟩
          have hm : uniqueTuple (mkRecord dp dt b (suf i) r2) ∈ st.store.map uniqueTuple :=
            (insertRecord_dup_iff _ _ d (by rw [mkRecord_date]; exact hdd)).mp hi
          rcases List.mem_map.mp hm with ⟨s, hs, he2⟩
          rw [← uniqueTuple_mkRecord dp dt b (suf i) r2 htr, ← he2]
          exact List.mem_map_of_mem uniqueTuple (m1 s (by simpa using hs))
        · exact m2 r2 hr2

/-! ## C3 -/

/-- C3 counterexample: a two-row file with natural declaration ids but
no date cell at all.  Every produced record has a NULL shipment_date,
and SQLite treats NULL unique-index entries as pairwise distinct, so
nothing ever conflicts with idx_exports_unique: re-importing the very
same file inserts both rows again — the second run's inserted count is
2, the row count, not 0 as the claim states. -/
theorem C3_reimport_counterexample :
    (∀ r ∈ ([[("Declaration ID", RawValue.str "A1")], [("Declaration ID", RawValue.str "A2")]]
        : List RawRow),
      (findColumnValue r declarationIdNames).truthy = true)
    ∧ (runImport (fun _ => none) "fruits" "2-fruits" (fun _ => "b") (fun _ => false)
        (runImport (fun _ => none) "fruits" "1-fruits" (fun _ => "a") (fun _ => false) []
          [[("Declaration ID", RawValue.str "A1")], [("Declaration ID", RawValue.str "A2")]]).store
        [[("Declaration ID", RawValue.str "A1")],
          [("Declaration ID", RawValue.str "A2")]]).inserted = 2
    ∧ (2 : Nat) ≠ 0 := by
  refine ⟨by decide, ?_, by decide⟩
  decide

/-- C3 amended: re-importing a file whose every row resolves a truthy
(natural) declaration id and a non-null shipment date, with no external
persistence failures, changes nothing: after the first run every such
row's unique-index tuple is in the store, so the second run inserts 0
rows, skips all of them as duplicate-key failures (never surfacing an
error), leaves no-id at 0 and leaves the stored row set exactly as
after the first run, whatever the second run's batch tag or random
suffixes.  The non-null-date restriction is forced by SQLite unique
indexes treating NULLs as distinct: rows without a parseable date never
collide and are re-inserted. -/
theorem C3_reimport_idempotent :
    ∀ (dp : String → Option Int) (dt b1 b2 : String) (suf1 suf2 : Nat → String)
      (rows : List RawRow),
      (∀ r ∈ rows, (findColumnValue r declarationIdNames).truthy = true) →
      (∀ r ∈ rows, (dateFieldsOf dp r).1 ≠ none) →
      (runImport dp dt b2 suf2 (fun _ => false)
          (runImport dp dt b1 suf1 (fun _ => false) [] rows).store rows).store
        = (runImport dp dt b1 suf1 (fun _ => false) [] rows).store
      ∧ (runImport dp dt b2 suf2 (fun _ => false)
          (runImport dp dt b1 suf1 (fun _ => false) [] rows).store rows).inserted = 0
      ∧ (runImport dp dt b2 suf2 (fun _ => false)
          (runImport dp dt b1 suf1 (fun _ => false) [] rows).store rows).skipped = rows.length
      ∧ (runImport dp dt b2 suf2 (fun _ => false)
          (runImport dp dt b1 suf1 (fun _ => false) [] rows).store rows).noIdCount = 0 := by
  intro dp dt b1 b2 suf1 suf2 rows h1 h2
  have hd : ∀ r ∈ rows, ∃ d, (dateFieldsOf dp r).1 = some d := by
    intro r hr
    cases hv : (dateFieldsOf dp r).1 with
    | none => exact absurd hv (h2 r hr)
    | some d => exact ⟨d, rfl⟩
  have hcov := (runAux_covers dp dt b1 suf1 rows 0 (initState []) h1 hd).2
  have habs := runAux_absorb dp dt b2 suf2 rows 0
    (initState (runImport dp dt b1 suf1 (fun _ => false) [] rows).store) h1 hd
    (by
      intro r hr
      simpa [initState, runImport] using hcov r hr)
  unfold runImport at habs ⊢
  rw [habs]
  simp [initState]

/-- C3 witness: importing a two-row file with natural declaration ids
and serial dates twice. -/
theorem C3_reimport_idempotent_witness :
    (runImport (fun _ => none) "fruits" "2-fruits" (fun _ => "b") (fun _ => false)
        (runImport (fun _ => none) "fruits" "1-fruits" (fun _ => "a") (fun _ => false) []
          [[("Declaration ID", RawValue.str "A1"), ("Date", RawValue.num 45312)],
           [("Declaration ID", RawValue.str "A2"), ("Date", RawValue.num 45313)]]).store
        [[("Declaration ID", RawValue.str "A1"), ("Date", RawValue.num 45312)],
         [("Declaration ID", RawValue.str "A2"), ("Date", RawValue.num 45313)]]).store
      = (runImport (fun _ => none) "fruits" "1-fruits" (fun _ => "a") (fun _ => false) []
          [[("Declaration ID", RawValue.str "A1"), ("Date", RawValue.num 45312)],
           [("Declaration ID", RawValue.str "A2"), ("Date", RawValue.num 45313)]]).store
    ∧ (runImport (fun _ => none) "fruits" "2-fruits" (fun _ => "b") (fun _ => false)
        (runImport (fun _ => none) "fruits" "1-fruits" (fun _ => "a") (fun _ => false) []
          [[("Declaration ID", RawValue.str "A1"), ("Date", RawValue.num 45312)],
           [("Declaration ID", RawValue.str "A2"), ("Date", RawValue.num 45313)]]).store
        [[("Declaration ID", RawValue.str "A1"), ("Date", RawValue.num 45312)],
         [("Declaration ID", RawValue.str "A2"), ("Date", RawValue.num 45313)]]).inserted = 0
    ∧ (runImport (fun _ => none) "fruits" "2-fruits" (fun _ => "b") (fun _ => false)
        (runImport (fun _ => none) "fruits" "1-fruits" (fun _ => "a") (fun _ => false) []
          [[("Declaration ID", RawValue.str "A1"), ("Date", RawValue.num 45312)],
           [("Declaration ID", RawValue.str "A2"), ("Date", RawValue.num 45313)]]).store
        [[("Declaration ID", RawValue.str "A1"), ("Date", RawValue.num 45312)],
         [("Declaration ID", RawValue.str "A2"), ("Date", RawValue.num 45313)]]).skipped
      = [[("Declaration ID", RawValue.str "A1"), ("Date", RawValue.num 45312)],
         [("Declaration ID", RawValue.str "A2"), ("Date", RawValue.num 45313)]].length
    ∧ (runImport (fun _ => none) "fruits" "2-fruits" (fun _ => "b") (fun _ => false)
        (runImport (fun _ => none) "fruits" "1-fruits" (fun _ => "a") (fun _ => false) []
          [[("Declaration ID", RawValue.str "A1"), ("Date", RawValue.num 45312)],
           [("Declaration ID", RawValue.str "A2"), ("Date", RawValue.num 45313)]]).store
        [[("Declaration ID", RawValue.str "A1"), ("Date", RawValue.num 45312)],
         [("Declaration ID", RawValue.str "A2"), ("Date", RawValue.num 45313)]]).noIdCount = 0 :=
  C3_reimport_idempotent (fun _ => none) "fruits" "1-fruits" "2-fruits" (fun _ => "a")
    (fun _ => "b")
    [[("Declaration ID", RawValue.str "A1"), ("Date", RawValue.num 45312)],
     [("Declaration ID", RawValue.str "A2"), ("Date", RawValue.num 45313)]]
    (by decide) (by decide)

/-! ## Freshness lemmas for C4 -/

lemma mkRecord_suffix_eq (dp : String → Option Int) (dt b s1 s2 : String) (row : RawRow)
    (h : (findColumnValue row declarationIdNames).truthy = true) :
    mkRecord dp dt b s1 row = mkRecord dp dt b s2 row := by
  unfold mkRecord
  rw [uniqueIdOf_truthy row s1 h, uniqueIdOf_truthy row s2 h]

lemma mkRecord_declId (dp : String → Option Int) (dt b s : String) (row : RawRow)
    (h : (findColumnValue row declarationIdNames).truthy = true) :
    (mkRecord dp dt b s row).declaration_id = declIdStr row := by
  unfold mkRecord declIdStr
  rw [uniqueIdOf_truthy row s h]

lemma keptRows_length_le (failAt : Nat → Bool) :
    ∀ (rows : List RawRow) (i : Nat), (keptRows failAt i rows).length ≤ rows.length := by
  intro rows
  induction rows with
  | nil => intro i; simp [keptRows]
  | cons r rest ih =>
    intro i
    cases h : failAt i with
    | true => simp [keptRows, h]; exact Nat.le_succ_of_le (ih (i + 1))
    | false => simp [keptRows, h]; exact ih (i + 1)

lemma runAux_fresh (dp : String → Option Int) (dt b : String) (suf : Nat → String)
    (failAt : Nat → Bool) :
    ∀ (rows : List RawRow) (i : Nat) (st : RunState),
      (∀ r ∈ rows, (findColumnValue r declarationIdNames).truthy = true) →
      rows.Pairwise (fun r1 r2 => declIdStr r1 ≠ declIdStr r2) →
      (∀ r ∈ rows, declIdStr r ∉ st.store.map ShipmentRecord.declaration_id) →
      runAux dp dt b suf failAt i st rows =
        { store := st.store ++ (keptRows failAt i rows).map (mkRecord dp dt b ""),
          inserted := st.inserted + (keptRows failAt i rows).length,
          skipped := st.skipped + (rows.length - (keptRows failAt i rows).length),
          noIdCount := st.noIdCount } := by
  intro rows
  induction rows with
  | nil => intro i st _ _ _; simp [runAux, keptRows]
  | cons r rest ih =>
    intro i st h1 hp hfresh
    have htr := h1 r (by simp)
    have hut : (uniqueIdOf r (suf i)).truthy = true := by
      rw [uniqueIdOf_truthy r (suf i) htr]; exact htr
    have hhead := (List.pairwise_cons.mp hp).1
    have hrest := (List.pairwise_cons.mp hp).2
    have hklen := keptRows_length_le failAt rest (i + 1)
    cases hf : failAt i with
    | true =>
      have hpr : processRow dp dt b (suf i) (failAt i) st r =
          { st with skipped := st.skipped + 1 } := by
        simp [processRow, hut, hf]
      simp only [runAux, hpr]
      rw [ih (i + 1) { st with skipped := st.skipped + 1 }
        (fun r2 hr2 => h1 r2 (by simp [hr2])) hrest
        (fun r2 hr2 => hfresh r2 (by simp [hr2]))]
      have hkept : keptRows failAt i (r :: rest) = keptRows failAt (i + 1) rest := by
        simp [keptRows, hf]
      rw [hkept]
      congr 1
      simp only [List.length_cons]
      omega
    | false =>
      have hnone : ¬ insertRecord st.store (mkRecord dp dt b (suf i) r) = none := by
        intro hn
        rcases (insertRecord_none_iff _ _).mp hn with ⟨s, hs, hc⟩
        have hd : s.declaration_id = declIdStr r := by
          rw [uniqueConflict_declId s _ hc]
          exact mkRecord_declId dp dt b (suf i) r htr
        exact hfresh r (by simp) (by
          rw [← hd]
          exact List.mem_map_of_mem ShipmentRecord.declaration_id hs)
      cases hi : insertRecord st.store (mkRecord dp dt b (suf i) r) with
      | none => exact absurd hi hnone
      | some s2 =>
        have hs2 := insertRecord_some _ _ _ hi
        have hpr : processRow dp dt b (suf i) (failAt i) st r =
            { st with store := s2, inserted := st.inserted + 1 } := by
          simp [processRow, hut, hf, hi]
        simp only [runAux, hpr]
        rw [ih (i + 1) { st with store := s2, inserted := st.inserted + 1 }
          (fun r2 hr2 => h1 r2 (by simp [hr2])) hrest
          (fun r2 hr2 => by
            simp only [hs2]
            intro hmem
            rcases List.mem_map.mp hmem with ⟨s, hs, he⟩
            rcases List.mem_append.mp hs with hsl | hsr
            · exact hfresh r2 (by simp [hr2])
                (he ▸ List.mem_map_of_mem ShipmentRecord.declaration_id hsl)
            · have : s = mkRecord dp dt b (suf i) r := by simpa using hsr
              subst this
              rw [mkRecord_declId dp dt b (suf i) r htr] at he
              exact hhead r2 hr2 he)]
        have hrec : mkRecord dp dt b (suf i) r = mkRecord dp dt b "" r :=
          mkRecord_suffix_eq dp dt b (suf i) "" r htr
        have hkept : keptRows failAt i (r :: rest) = r :: keptRows failAt (i + 1) rest := by
          simp [keptRows, hf]
        rw [hkept, hs2, hrec]
        dsimp only
        congr 1
        · simp
        · simp only [List.length_cons]
          omega
        · simp only [List.length_cons]
          omega

/-! ## C4 -/

/-- C4: a per-row persistence failure only marks that row skipped and
never aborts the run — with a throwing insert the loop state advances
by exactly one skip — and in a ten-row batch of fresh rows with natural
declaration ids where only row five (index 4) throws, the other nine
rows are all inserted and the summary counts inserted 9, skipped 1,
total 10. -/
theorem C4_row_failure_isolation :
    (∀ (dp : String → Option Int) (dt b s : String) (st : RunState) (row : RawRow),
      (uniqueIdOf row s).truthy = true →
      processRow dp dt b s true st row = { st with skipped := st.skipped + 1 })
    ∧ (∀ (dp : String → Option Int) (dt b : String) (suf : Nat → String) (rows : List RawRow),
      rows.length = 10 →
      (∀ r ∈ rows, (findColumnValue r declarationIdNames).truthy = true) →
      (rows.map declIdStr).Nodup →
      (runImport dp dt b suf (fun i => i == 4) [] rows).inserted = 9
      ∧ (runImport dp dt b suf (fun i => i == 4) [] rows).skipped = 1
      ∧ (runImport dp dt b suf (fun i => i == 4) [] rows).noIdCount = 0
      ∧ (runImport dp dt b suf (fun i => i == 4) [] rows).inserted
          + (runImport dp dt b suf (fun i => i == 4) [] rows).skipped = 10
      ∧ (runImport dp dt b suf (fun i => i == 4) [] rows).store
          = (rows.eraseIdx 4).map (mkRecord dp dt b "")) := by
  constructor
  · intro dp dt b s st row h
    simp [processRow, h]
  · intro dp dt b suf rows hlen h1 hnd
    have hp : rows.Pairwise (fun r1 r2 => declIdStr r1 ≠ declIdStr r2) := by
      rw [List.Nodup, List.pairwise_map] at hnd
      exact hnd
    have hfr := runAux_fresh dp dt b suf (fun i => i == 4) rows 0 (initState []) h1 hp
      (by simp [initState])
    unfold runImport
    rcases rows with _ | ⟨r0, rows⟩; · simp at hlen
    rcases rows with _ | ⟨r1, rows⟩; · simp at hlen
    rcases rows with _ | ⟨r2, rows⟩; · simp at hlen
    rcases rows with _ | ⟨r3, rows⟩; · simp at hlen
    rcases rows with _ | ⟨r4, rows⟩; · simp at hlen
    rcases rows with _ | ⟨r5, rows⟩; · simp at hlen
    rcases rows with _ | ⟨r6, rows⟩; · simp at hlen
    rcases rows with _ | ⟨r7, rows⟩; · simp at hlen
    rcases rows with _ | ⟨r8, rows⟩; · simp at hlen
    rcases rows with _ | ⟨r9, rows⟩; · simp at hlen
    rcases rows with _ | ⟨r10, rows⟩
    · rw [hfr]
      simp [keptRows, initState, List.eraseIdx]
    · simp at hlen

/-- C4 witness: ten concrete rows with declaration ids D0 to D9, where
only the fifth insert throws. -/
theorem C4_row_failure_isolation_witness :
    (runImport (fun _ => none) "fruits" "b" (fun _ => "") (fun i => i == 4) [] tenRows).inserted = 9
    ∧ (runImport (fun _ => none) "fruits" "b" (fun _ => "") (fun i => i == 4) [] tenRows).skipped = 1
    ∧ (runImport (fun _ => none) "fruits" "b" (fun _ => "") (fun i => i == 4) [] tenRows).noIdCount = 0
    ∧ (runImport (fun _ => none) "fruits" "b" (fun _ => "") (fun i => i == 4) [] tenRows).inserted
        + (runImport (fun _ => none) "fruits" "b" (fun _ => "") (fun i => i == 4) [] tenRows).skipped = 10
    ∧ (runImport (fun _ => none) "fruits" "b" (fun _ => "") (fun i => i == 4) [] tenRows).store
        = (tenRows.eraseIdx 4).map (mkRecord (fun _ => none) "fruits" "b" "") :=
  C4_row_failure_isolation.2 (fun _ => none) "fruits" "b" (fun _ => "") tenRows
    (by decide) (by decide) (by decide)

/-! ## C7 -/

/-- C7: for a string date cell the direct engine parse is attempted
first; only when it fails is the cell split on hyphen or slash, and
exactly when three parts result is the date rebuilt day-month-year; any
parsed result is accepted only when its year exceeds 1900; and when
everything fails both date fields are null while the row still proceeds
to identity synthesis and insertion accounting like any other row. -/
theorem C7_string_date_resolution :
    (∀ (dp : String → Option Int) (s : String) (t : Int),
      dp s = some t → stringDateDays dp s = some t)
    ∧ (∀ (dp : String → Option Int) (s : String),
      dp s = none → (splitDateSep s).length = 3 →
      stringDateDays dp s =
        jsNewDateYMD ((splitDateSep s).getD 2 "") ((splitDateSep s).getD 1 "")
          ((splitDateSep s).getD 0 ""))
    ∧ (∀ (dp : String → Option Int) (s : String),
      dp s = none → (splitDateSep s).length ≠ 3 → stringDateDays dp s = none)
    ∧ (∀ (dp : String → Option Int) (s : String) (days : Int),
      stringDateDays dp s = some days → ¬(1900 < (civilFromDays days).1) →
      resolveStringDate dp s = (none, none))
    ∧ (∀ (dp : String → Option Int) (s : String) (days : Int),
      stringDateDays dp s = some days → 1900 < (civilFromDays days).1 →
      resolveStringDate dp s =
        (some (isoOfCivil (civilFromDays days)),
         some (jsIntRepr (civilFromDays days).1 ++ "-" ++ pad2 (civilFromDays days).2.1)))
    ∧ (∀ (dp : String → Option Int) (s : String),
      stringDateDays dp s = none → resolveStringDate dp s = (none, none))
    ∧ (∀ (dp : String → Option Int) (dt b suffix : String) (fail : Bool) (st : RunState)
        (row : RawRow),
      dateFieldsOf dp row = (none, none) →
      (mkRecord dp dt b suffix row).shipment_date = none
      ∧ (mkRecord dp dt b suffix row).month_year = none
      ∧ (processRow dp dt b suffix fail st row).inserted
          + (processRow dp dt b suffix fail st row).skipped
          = st.inserted + st.skipped + 1) := by
  refine ⟨?_, ?_, ?_, ?_, ?_, ?_, ?_⟩
  · intro dp s t h
    simp [stringDateDays, h]
  · intro dp s h1 h2
    simp [stringDateDays, h1, h2]
  · intro dp s h1 h2
    simp [stringDateDays, h1, h2]
  · intro dp s days h1 h2
    simp [resolveStringDate, h1, if_neg h2]
  · intro dp s days h1 h2
    simp [resolveStringDate, h1, if_pos h2]
  · intro dp s h
    simp [resolveStringDate, h]
  · intro dp dt b suffix fail st row h
    refine ⟨by simp [mkRecord, h], by simp [mkRecord, h], ?_⟩
    rcases processRow_split dp dt b suffix fail st row with hc | ⟨s2, hc⟩ | hc <;>
      rw [hc] <;> simp <;> omega

/-- C7 witness: the individual clauses at a fixed direct parser, the
day-month-year strings 15/1/2024 (accepted, year 2024) and 5/1/1900
(rejected by the year guard), an unsplittable string, and a row whose
date cell fails every parse but is still processed. -/
theorem C7_string_date_resolution_witness :
    stringDateDays (fun s => if s = "x" then some 5 else none) "x" = some 5
    ∧ stringDateDays (fun _ => none) "15/1/2024" =
        jsNewDateYMD ((splitDateSep "15/1/2024").getD 2 "") ((splitDateSep "15/1/2024").getD 1 "")
          ((splitDateSep "15/1/2024").getD 0 "")
    ∧ stringDateDays (fun _ => none) "junk" = none
    ∧ resolveStringDate (fun _ => none) "5/1/1900" = (none, none)
    ∧ resolveStringDate (fun _ => none) "15/1/2024" =
        (some (isoOfCivil (civilFromDays 19737)),
         some (jsIntRepr (civilFromDays 19737).1 ++ "-" ++ pad2 (civilFromDays 19737).2.1))
    ∧ resolveStringDate (fun _ => none) "" = (none, none)
    ∧ ((mkRecord (fun _ => none) "fruits" "b" "" [("Date", RawValue.str "junk")]).shipment_date = none
       ∧ (mkRecord (fun _ => none) "fruits" "b" "" [("Date", RawValue.str "junk")]).month_year = none
       ∧ (processRow (fun _ => none) "fruits" "b" "" false (initState [])
            [("Date", RawValue.str "junk")]).inserted
          + (processRow (fun _ => none) "fruits" "b" "" false (initState [])
              [("Date", RawValue.str "junk")]).skipped
          = (initState []).inserted + (initState []).skipped + 1) :=
  ⟨C7_string_date_resolution.1 (fun s => if s = "x" then some 5 else none) "x" 5 (by decide),
   C7_string_date_resolution.2.1 (fun _ => none) "15/1/2024" rfl (by decide),
   C7_string_date_resolution.2.2.1 (fun _ => none) "junk" rfl (by decide),
   C7_string_date_resolution.2.2.2.1 (fun _ => none) "5/1/1900" (-25563) (by decide) (by decide),
   C7_string_date_resolution.2.2.2.2.1 (fun _ => none) "15/1/2024" 19737 (by decide) (by decide),
   C7_string_date_resolution.2.2.2.2.2.1 (fun _ => none) "" (by decide),
   C7_string_date_resolution.2.2.2.2.2.2 (fun _ => none) "fruits" "b" "" false (initState [])
     [("Date", RawValue.str "junk")] (by decide)⟩

/-! ## Shape lemmas for C9 -/

lemma strDataAppend (a b : String) : (a ++ b).data = a.data ++ b.data := rfl

lemma strEta (s : String) : String.mk s.data = s := rfl

lemma natDigitsAux_ne_nil (f n : Nat) (hf : 0 < f) : natDigitsAux f n ≠ [] := by
  cases f with
  | zero => omega
  | succ f =>
    show (if n < 10 then [digitChar n] else natDigitsAux f (n / 10) ++ [digitChar (n % 10)]) ≠ []
    by_cases h : n < 10 <;> simp [h]

lemma natDigitsAux_step (f n : Nat) (h10 : 10 ≤ n) :
    natDigitsAux (f + 1) n = natDigitsAux f (n / 10) ++ [digitChar (n % 10)] := by
  show (if n < 10 then [digitChar n] else natDigitsAux f (n / 10) ++ [digitChar (n % 10)]) = _
  rw [if_neg (by omega)]

lemma natDigitsAux_len_ge : ∀ (k f n : Nat), n < f → 10 ^ k ≤ n →
    k + 1 ≤ (natDigitsAux f n).length := by
  intro k
  induction k with
  | zero =>
    intro f n hf hk
    have := natDigitsAux_ne_nil f n (by omega)
    have := List.length_pos.mpr this
    omega
  | succ k ih =>
    intro f n hf hk
    have hp : 1 ≤ 10 ^ k := Nat.one_le_pow k 10 (by norm_num)
    have hks : 10 ^ k * 10 ≤ n := by
      rw [← pow_succ]
      exact hk
    have h10 : 10 ≤ n := by
      have : 10 ≤ 10 ^ k * 10 := by nlinarith
      omega
    cases f with
    | zero => omega
    | succ f =>
      rw [natDigitsAux_step f n h10]
      have hdiv : 10 ^ k ≤ n / 10 := (Nat.le_div_iff_mul_le (by norm_num)).mpr hks
      have hlt : n / 10 < f := by
        have := Nat.div_lt_self (show 0 < n by omega) (show 1 < 10 by norm_num)
        omega
      have := ih f (n / 10) hlt hdiv
      simp only [List.length_append, List.length_cons, List.length_nil]
      omega

lemma jsNatRepr_len_ge4 (n : Nat) (h : 1000 ≤ n) : 4 ≤ (jsNatRepr n).data.length := by
  have := natDigitsAux_len_ge 3 (n + 1) n (by omega) (by norm_num; omega)
  simpa [jsNatRepr] using this

lemma padZeros_len_ge (n : Nat) (s : String) : n ≤ (padZeros n s).data.length := by
  unfold padZeros
  by_cases h : s.data.length < n
  · rw [if_pos h]
    dsimp only
    simp only [List.length_append, List.length_replicate]
    omega
  · rw [if_neg h]
    omega

lemma pad2_len_ge (i : Int) : 2 ≤ (pad2 i).data.length := padZeros_len_ge 2 (jsIntRepr i)

lemma getD_append_at (l1 l2 : List Char) (c d : Char) :
    (l1 ++ c :: l2).getD l1.length d = c := by
  induction l1 with
  | nil => simp
  | cons a t ih => simpa using ih

lemma take7_pattern (yrs ms ds : List Char) (hms : 2 ≤ ms.length) (hds : 2 ≤ ds.length)
    (h : checkYmdList (yrs ++ '-' :: (ms ++ '-' :: ds)) = true) :
    (yrs ++ '-' :: (ms ++ '-' :: ds)).take 7 = yrs ++ '-' :: ms := by
  simp only [checkYmdList, Bool.and_eq_true, decide_eq_true_eq, beq_iff_eq, List.all_cons,
    List.all_nil, and_true] at h
  obtain ⟨⟨⟨hl, _⟩, _⟩, hd0, hd1, hd2, hd3, _, _, _, _⟩ := h
  have hsum : yrs.length + 1 + (ms.length + 1 + ds.length) = 10 := by
    have h2 := hl
    simp [List.length_append] at h2
    omega
  have hdash : (yrs ++ '-' :: (ms ++ '-' :: ds)).getD yrs.length ' ' = '-' :=
    getD_append_at yrs (ms ++ '-' :: ds) '-' ' '
  have hy4 : yrs.length = 4 := by
    have hle : yrs.length ≤ 4 := by omega
    have hcases : yrs.length = 0 ∨ yrs.length = 1 ∨ yrs.length = 2 ∨ yrs.length = 3
        ∨ yrs.length = 4 := by omega
    rcases hcases with h0 | h0 | h0 | h0 | h0
    · rw [h0] at hdash; rw [hdash] at hd0; simp at hd0
    · rw [h0] at hdash; rw [hdash] at hd1; simp at hd1
    · rw [h0] at hdash; rw [hdash] at hd2; simp at hd2
    · rw [h0] at hdash; rw [hdash] at hd3; simp at hd3
    · exact h0
  have hms2 : ms.length = 2 := by omega
  have hshape : yrs ++ '-' :: (ms ++ '-' :: ds) = (yrs ++ '-' :: ms) ++ ('-' :: ds) := by
    simp
  have h7 : (yrs ++ '-' :: ms).length = 7 := by
    simp [List.length_append]
    omega
  rw [hshape, ← h7, List.take_left]

lemma c9_serial_take (y m d : Int)
    (h : checkYmd (jsIntRepr y ++ "-" ++ pad2 m ++ "-" ++ pad2 d) = true) :
    takeChars 7 (jsIntRepr y ++ "-" ++ pad2 m ++ "-" ++ pad2 d) = jsIntRepr y ++ "-" ++ pad2 m := by
  have hdata : (jsIntRepr y ++ "-" ++ pad2 m ++ "-" ++ pad2 d).data
      = (jsIntRepr y).data ++ '-' :: ((pad2 m).data ++ '-' :: (pad2 d).data) := by
    simp [strDataAppend]
  have hc : checkYmdList ((jsIntRepr y).data ++ '-' :: ((pad2 m).data ++ '-' :: (pad2 d).data))
      = true := by
    rw [← hdata]
    exact h
  have ht := take7_pattern (jsIntRepr y).data (pad2 m).data (pad2 d).data
    (pad2_len_ge m) (pad2_len_ge d) hc
  unfold takeChars
  rw [hdata, ht]
  have : (jsIntRepr y ++ "-" ++ pad2 m).data = (jsIntRepr y).data ++ '-' :: (pad2 m).data := by
    simp [strDataAppend]
  rw [← this, strEta]

lemma c9_string_take (y m d : Int) (hy : 1900 < y)
    (h : checkYmd (isoOfCivil (y, m, d)) = true) :
    takeChars 7 (isoOfCivil (y, m, d)) = jsIntRepr y ++ "-" ++ pad2 m := by
  by_cases hy2 : y ≤ 9999
  · have hcond : 0 ≤ y ∧ y ≤ 9999 := ⟨by omega, hy2⟩
    have hiso : isoOfCivil (y, m, d) = padZeros 4 (jsIntRepr y) ++ "-" ++ pad2 m ++ "-" ++ pad2 d := by
      simp [isoOfCivil, hcond]
    have hrepr : jsIntRepr y = jsNatRepr y.toNat := by
      simp [jsIntRepr, show ¬(y < 0) by omega]
    have hlen4 : 4 ≤ (jsIntRepr y).data.length := by
      rw [hrepr]
      exact jsNatRepr_len_ge4 y.toNat (by omega)
    have hpad : padZeros 4 (jsIntRepr y) = jsIntRepr y := by
      unfold padZeros
      rw [if_neg (by omega)]
    rw [hiso, hpad] at h ⊢
    exact c9_serial_take y m d h
  · exfalso
    have hcond : ¬(0 ≤ y ∧ y ≤ 9999) := by omega
    have hgt : (9999 : Int) < y := by omega
    have hiso : isoOfCivil (y, m, d)
        = "+" ++ padZeros 6 (jsIntRepr y) ++ "-" ++ pad2 m ++ "-" ++ pad2 d := by
      simp [isoOfCivil, hcond, hgt]
    rw [hiso] at h
    have hdata : ("+" ++ padZeros 6 (jsIntRepr y) ++ "-" ++ pad2 m ++ "-" ++ pad2 d).data
        = '+' :: ((padZeros 6 (jsIntRepr y)).data ++ '-' :: ((pad2 m).data ++ '-' :: (pad2 d).data)) := by
      simp [strDataAppend]
    unfold checkYmd at h
    rw [hdata] at h
    simp [checkYmdList] at h

lemma c9_pair_serial (n : Int) :
    ((resolveSerialDate n).1 = none ↔ (resolveSerialDate n).2 = none)
    ∧ (∀ s, (resolveSerialDate n).1 = some s → checkYmd s = true →
        (resolveSerialDate n).2 = some (takeChars 7 s)) := by
  unfold resolveSerialDate
  cases hp : parseDateCode n with
  | none => simp
  | some c =>
    obtain ⟨y, m, d⟩ := c
    dsimp only
    refine ⟨by simp, ?_⟩
    intro s hs hc
    have hs2 : jsIntRepr y ++ "-" ++ pad2 m ++ "-" ++ pad2 d = s := by
      simpa using hs
    subst hs2
    rw [c9_serial_take y m d hc]

lemma c9_pair_string (dp : String → Option Int) (s0 : String) :
    ((resolveStringDate dp s0).1 = none ↔ (resolveStringDate dp s0).2 = none)
    ∧ (∀ s, (resolveStringDate dp s0).1 = some s → checkYmd s = true →
        (resolveStringDate dp s0).2 = some (takeChars 7 s)) := by
  unfold resolveStringDate
  cases hsd : stringDateDays dp s0 with
  | none => simp
  | some days =>
    dsimp only
    rcases hciv : civilFromDays days with ⟨y, m, d⟩
    dsimp only
    by_cases hy : 1900 < y
    · rw [if_pos hy]
      refine ⟨by simp, ?_⟩
      intro s hs hc
      have hs2 : isoOfCivil (y, m, d) = s := by simpa using hs
      subst hs2
      rw [c9_string_take y m d hy hc]
    · rw [if_neg hy]
      simp

/-! ## C9 -/

/-- C9: shipment_date and month_year are null together, and whenever
shipment_date is produced in plain YYYY-MM-DD shape, month_year is
exactly its first seven characters — in the Excel-serial branch and in
the string-parsing branch alike. -/
theorem C9_month_year_derivation :
    ∀ (dp : String → Option Int) (row : RawRow),
      ((dateFieldsOf dp row).1 = none ↔ (dateFieldsOf dp row).2 = none)
      ∧ (∀ s, (dateFieldsOf dp row).1 = some s → checkYmd s = true →
          (dateFieldsOf dp row).2 = some (takeChars 7 s)) := by
  intro dp row
  cases htr : (dateValueOf row).truthy with
  | false =>
    have hred : dateFieldsOf dp row = (none, none) := by
      simp [dateFieldsOf, htr]
    rw [hred]
    simp
  | true =>
    cases hv : dateValueOf row with
    | null => rw [hv] at htr; simp [RawValue.truthy] at htr
    | num n =>
      rw [hv] at htr
      have hred : dateFieldsOf dp row = resolveSerialDate n := by
        simp [dateFieldsOf, hv, htr]
      rw [hred]
      exact c9_pair_serial n
    | str s0 =>
      rw [hv] at htr
      have hred : dateFieldsOf dp row = resolveStringDate dp s0 := by
        simp [dateFieldsOf, hv, htr, RawValue.jsString]
      rw [hred]
      exact c9_pair_string dp s0

/-- C9 witness: the spec scenario serial 45312, whose shipment date is
2024-01-21 and whose month bucket is its seven-character prefix. -/
theorem C9_month_year_derivation_witness :
    (dateFieldsOf (fun _ => none) [("Date", RawValue.num 45312)]).2
      = some (takeChars 7 "2024-01-21") :=
  (C9_month_year_derivation (fun _ => none) [("Date", RawValue.num 45312)]).2 "2024-01-21"
    (by decide) (by decide)

end EDE
